import Mathlib

/-!
Shallow embedding of the Mia autonomous-planner core
(`ai_adapter/planner/self_loop.py`, `ai_adapter/core/executor.py`,
`ai_adapter/core/memory.py`) and proofs of the spec claims about it.

External effects (the LLM oracle, spawned shell processes, plugin callables,
jinja template rendering, the filesystem) are modelled as explicit function
parameters collected in an `Env` record; the planner's own control flow,
guard logic, memory updates and aggregation are translated line by line from
the Python source.  Python machine behaviour modelled here:
* `str.strip()`  -> `String.trim` (ASCII whitespace; all claim inputs are ASCII),
* `x in s` for strings -> contiguous-substring test `decide (x.data <:+: s.data)`,
* `str.lower()`  -> character-wise `Char.toLower` (ASCII),
* `os.path.expanduser` -> leading-tilde rewriting against a `home` string,
* process return codes -> `Int` (no overflow semantics involved),
* a Python `dict` -> insertion-ordered association list.
-/

namespace Mia

/-- Result of executing one step's actions
(dataclass `Observation(code, output, error)` in `self_loop.py`). -/
structure Observation where
  code : Int
  output : String
  error : String
deriving Repr, DecidableEq

/-- An executable item produced by the action builder: in Python this is
either a rendered shell command `str`, a `{"plugin": ..., "params": ...}`
dict, or any other (unknown) value.  `unknown s` carries the `repr` text of
the foreign value. -/
inductive Item where
  | shell (cmd : String)
  | plugin (path : String) (params : List (String × String))
  | unknown (reprText : String)
deriving Repr, DecidableEq

/-- An intent's action specification: `{shell: [templates]}` or
`{plugin: "<id>"}` in the YAML intent registry. -/
inductive Spec where
  | shell (templates : List String)
  | plugin (id : String)
deriving Repr, DecidableEq

/-- Python `s.startswith(pre)` (character-list based so that the kernel
can evaluate it on concrete inputs). -/
def startsWithPy (pre s : String) : Bool := List.isPrefixOf pre.data s.data

/-- Python `s.endswith(suf)`. -/
def endsWithPy (suf s : String) : Bool :=
  List.isPrefixOf suf.data.reverse s.data.reverse

/-- Python `s[n:]`. -/
def dropPy (s : String) (n : Nat) : String := String.mk (s.data.drop n)

/-- Python `s[:n]`. -/
def takePy (s : String) (n : Nat) : String := String.mk (s.data.take n)

/-- The whitespace class stripped by Python `str.strip()` (the ASCII part,
which covers every output the modelled code produces). -/
def isSpacePy (c : Char) : Bool := c = ' ' || c = '\t' || c = '\n' || c = '\r'

/-- Python `s.strip()`: remove leading and trailing whitespace. -/
def trimPy (s : String) : String :=
  String.mk (((s.data.dropWhile isSpacePy).reverse.dropWhile isSpacePy).reverse)

/-- Python `sep.join(parts)`. -/
def joinPy (sep : String) : List String → String
  | [] => ""
  | [x] => x
  | x :: y :: rest => x ++ sep ++ joinPy sep (y :: rest)

/-- `os.path.expanduser` restricted to the `~`/`~/...` forms the program
uses (a `~user` form never occurs in the modelled code paths). -/
def expanduser (home p : String) : String :=
  if p = "~" then home
  else if startsWithPy "~/" p then home ++ dropPy p 1
  else p

/-- Python's `needle in haystack` on strings: contiguous substring test. -/
def strIn (needle haystack : String) : Bool :=
  decide (needle.data <:+: haystack.data)

/-- Python's `str.lower()` (character-wise, sufficient for the ASCII
keyword lists the planner heuristics use). -/
def lowerPy (s : String) : String := String.mk (s.data.map Char.toLower)

/-- POSIX `os.path.join` for the two-argument uses in the source. -/
def path_join (a b : String) : String :=
  if startsWithPy "/" b then b
  else if a = "" then b
  else if endsWithPy "/" a then a ++ b
  else a ++ "/" ++ b

/-- `SAFE_INTENTS_DEFAULT` from `self_loop.py` (a Python set; order is
irrelevant, only membership is used). -/
def SAFE_INTENTS_DEFAULT : List String :=
  ["create_folder", "list_home", "list_dir",
   "create_file", "write_file", "edit_file", "read_file", "file_exists",
   "ping_host"]

/-- `MAX_STEPS_DEFAULT = 20`. -/
def MAX_STEPS_DEFAULT : Nat := 20

/-- `_needs_create(goal)` from `self_loop.py`. -/
def needsCreate (goal : String) : Bool :=
  let g := lowerPy goal
  strIn "create" g || strIn "make" g || strIn "write a file" g ||
    strIn "write file" g || strIn "put a file" g || strIn "add a file" g ||
    strIn "new folder" g || strIn "new directory" g || strIn "create folder" g

/-- `_needs_edit(goal)` from `self_loop.py`. -/
def needsEdit (goal : String) : Bool :=
  let g := lowerPy goal
  strIn "edit" g || strIn "modify" g || strIn "change" g ||
    strIn "convert" g || strIn "update" g || strIn "refactor" g

/-- `MUTATION_INTENTS` from `Planner.run`. -/
def MUTATION_INTENTS : List String :=
  ["create_file", "write_file", "edit_file", "create_folder"]

/-- Association-list lookup, modelling Python `dict` access / `"k" in d`. -/
def findAssoc : List (String × String) → String → Option String
  | [], _ => none
  | (k', v') :: rest, k => if k' = k then some v' else findAssoc rest k

/-- Association-list update `d[k] = v`, preserving insertion order the way
a Python dict does. -/
def setAssoc : List (String × String) → String → String → List (String × String)
  | [], k, v => [(k, v)]
  | (k', v') :: rest, k, v =>
      if k' = k then (k, v) :: rest else (k', v') :: setAssoc rest k v

/-- `Memory` from `core/memory.py`: a bounded rolling conversation buffer
(`deque(maxlen=...)`) plus a symbolic key/value store (a dict). -/
structure Memory where
  buf : List String
  maxlen : Nat
  state : List (String × String)
deriving Repr, DecidableEq

/-- `Memory()` as constructed by `Planner.run` (default `maxlen=20`). -/
def initMemory : Memory := ⟨[], 20, []⟩

/-- `Memory.add`: append to the rolling buffer, evicting oldest entries
beyond `maxlen` exactly as `deque(maxlen=...)` does. -/
def Memory.add (m : Memory) (t : String) : Memory :=
  let b := m.buf ++ [t]
  { m with buf := if m.maxlen < b.length then b.drop (b.length - m.maxlen) else b }

/-- `Memory.set(key, value)`: stores `os.path.expanduser(value)` under
`key` (the `home` of the hosting process is passed explicitly). -/
def Memory.set (home : String) (m : Memory) (key value : String) : Memory :=
  { m with state := setAssoc m.state key (expanduser home value) }

/-- `Memory.get(key)` with Python's `None` default. -/
def Memory.get (m : Memory) (key : String) : Option String :=
  findAssoc m.state key

/-- `Memory.get(key, default)` with a caller-supplied string default. -/
def Memory.getOr (m : Memory) (key default : String) : String :=
  match findAssoc m.state key with
  | some v => v
  | none => default

/-- The planner's external world.  Every effectful collaborator of
`self_loop.py` is a field: the whitelist and step budget configured on the
`Planner` dataclass, the process home directory, the intent registry
(`Router.get`, `none` models the `KeyError`), jinja template rendering,
shell execution (`subprocess.run` on the expanded command: exit code,
stdout, stderr; `Except.error` models a raised `OSError`-like failure),
and plugin calls (text printed to stdout paired with either a returned
exit code or a raised exception's message and formatted traceback). -/
structure Env where
  allowed_intents : List String
  max_steps : Nat
  home : String
  registry : String → Option Spec
  render : String → List (String × String) → String
  shellExec : String → Except String (Int × String × String)
  pluginExec : String → List (String × String) → String × Except (String × String) Int

/-- `_capture_shell(cmd)`: expand `~`, run the process, wrap failures into
an `Observation` with code 1. -/
def capture_shell (env : Env) (cmd : String) : Observation :=
  match env.shellExec (expanduser env.home cmd) with
  | Except.ok (c, out, err) => ⟨c, out, err⟩
  | Except.error e => ⟨1, "", e⟩

/-- `_capture_plugin_call(plugin_path, params)`: the callable's prints are
captured into `output`; an exception raised by the callable becomes
`Observation(code=1, output=<prints so far>, error=f"{e}\n{tb}")` and is
not propagated. -/
def capture_plugin_call (env : Env) (path : String)
    (params : List (String × String)) : Observation :=
  match env.pluginExec path params with
  | (printed, Except.ok c) => ⟨c, printed, ""⟩
  | (printed, Except.error (msg, tb)) => ⟨1, printed, msg ++ "\n" ++ tb⟩

/-- Dispatch of one item inside `_execute_and_observe`'s loop body:
`str` -> shell, dict with `"plugin"` -> plugin call, anything else ->
`Observation(code=1, error=f"Unknown command type: {item!r}")`. -/
def item_obs (env : Env) : Item → Observation
  | Item.shell c => capture_shell env c
  | Item.plugin p ps => capture_plugin_call env p ps
  | Item.unknown r => ⟨1, "", "Unknown command type: " ++ r⟩

/-- The accumulator loop of `_execute_and_observe`: `out_parts` and
`err_parts` collect the stripped non-empty per-item outputs, and
`code_final` is overwritten by every item's code (initially 0). -/
def execGo (f : Item → Observation) :
    List Item → List String → List String → Int → List String × List String × Int
  | [], outs, errs, code => (outs, errs, code)
  | item :: rest, outs, errs, _ =>
      let obs := f item
      execGo f rest
        (if obs.output = "" then outs else outs ++ [trimPy obs.output])
        (if obs.error = "" then errs else errs ++ [trimPy obs.error])
        obs.code

/-- `_execute_and_observe(commands)`: run all items, aggregate with
`"\n".join(p for p in parts if p)` and the final (last) code. -/
def execute_and_observe (f : Item → Observation) (commands : List Item) : Observation :=
  let r := execGo f commands [] [] 0
  ⟨r.2.2,
   joinPy "\n" (r.1.filter fun s => s != ""),
   joinPy "\n" (r.2.1.filter fun s => s != "")⟩

/-- `_build_cmds(router, spec, params)`: shell templates are rendered one
by one; a plugin spec yields a single descriptor with raw params. -/
def build_cmds (render : String → List (String × String) → String)
    (spec : Spec) (params : List (String × String)) : List Item :=
  match spec with
  | Spec.shell templates => templates.map fun t => Item.shell (render t params)
  | Spec.plugin pid => [Item.plugin pid params]

/-- The loop body of `Executor.run` from `core/executor.py`, as a fold over
the remaining commands.  `approve k` is the user's answer to the `k`-th
interactive confirmation prompt; a declined shell item is skipped with the
running code unchanged; a plugin exception yields code 1; an unknown item
only prints a warning and changes nothing. -/
def executorGo (approve : Nat → Bool) (shellCode : String → Int)
    (plugCode : String → List (String × String) → Except String Int)
    (confirm : Bool) : List Item → Int → Nat → Int
  | [], code, _ => code
  | Item.shell c :: rest, code, k =>
      if confirm && !(approve k) then
        executorGo approve shellCode plugCode confirm rest code (k + 1)
      else
        executorGo approve shellCode plugCode confirm rest (shellCode c) (k + 1)
  | Item.plugin p ps :: rest, _, k =>
      executorGo approve shellCode plugCode confirm rest
        (match plugCode p ps with | Except.ok c => c | Except.error _ => 1) k
  | Item.unknown _ :: rest, code, k =>
      executorGo approve shellCode plugCode confirm rest code k

/-- `Executor.run(commands)` from `core/executor.py` (initial code 0). -/
def executorRun (approve : Nat → Bool) (shellCode : String → Int)
    (plugCode : String → List (String × String) → Except String Int)
    (confirm : Bool) (cmds : List Item) : Int :=
  executorGo approve shellCode plugCode confirm cmds 0 0

/-- The parsed oracle JSON `{thought, intent, params, stop, report}`;
`intent = none` models JSON `null` or a missing key, `params = []` a
missing/empty dict. -/
structure OracleResponse where
  thought : String
  intent : Option String
  params : List (String × String)
  stop : Bool
  report : String
deriving Repr, DecidableEq

/-- What one call to `engine.parse` can produce for `Planner._ask`:
a well-formed dict, a non-dict value, or a raised exception. -/
inductive EngineReply where
  | ok (r : OracleResponse)
  | invalid
  | raise (msg : String)
deriving Repr, DecidableEq

/-- `Planner._ask`: a raised engine exception is converted into
`{"stop": True, "report": f"engine error: {e}"}` (no intent, no params);
a non-dict reply is passed through and rejected by the caller
(`none` here). -/
def ask : EngineReply → Option OracleResponse
  | EngineReply.ok r => some r
  | EngineReply.invalid => none
  | EngineReply.raise msg => some ⟨"", none, [], true, "engine error: " ++ msg⟩

/-- `seen_actions.any(... in MUTATION_INTENTS)`: `did_create`. -/
def didCreate (seen : List String) : Bool :=
  seen.any fun a => MUTATION_INTENTS.contains a

/-- `did_edit = any(a in ("edit_file", "write_file") for a in seen_actions)`. -/
def didEdit (seen : List String) : Bool :=
  seen.any fun a => a == "edit_file" || a == "write_file"

/-- The premature-stop guard of `Planner.run` (lines 280-300): the local
`stop` is recomputed from `data.get("stop", False)` on every step — note
this also silently discards the `stop = True` assigned by the read-loop
guard three lines earlier. -/
def computeStop (goal : String) (dataStop : Bool) (seen : List String) : Bool :=
  if dataStop then
    if needsEdit goal && !(didEdit seen) then false
    else if needsCreate goal && !(didCreate seen) then false
    else true
  else false

/-- The read-loop guard on the intent (line 275): a repeated `read_file`
is overridden to `edit_file`. -/
def effIntent (data : OracleResponse) (seen : List String) : Option String :=
  if data.intent = some "read_file" ∧ 1 ≤ seen.count "read_file" then
    some "edit_file"
  else data.intent

/-- Symbolic-memory hints and the `./`-relative path rewrite
(lines 313-321): `create_folder` records `last_folder`; file intents may
rewrite `params["path"]` against `last_folder` and record `last_file`.
Returns the (possibly rewritten) params and the updated memory. -/
def hintStep (env : Env) (i : String) (params : List (String × String))
    (mem : Memory) : List (String × String) × Memory :=
  let mem1 :=
    match (if i = "create_folder" then findAssoc params "path" else none) with
    | some p => Memory.set env.home mem "last_folder" p
    | none => mem
  if ["create_file", "write_file", "edit_file", "read_file", "file_exists"].contains i then
    match findAssoc params "path" with
    | some p =>
        let params1 :=
          if startsWithPy "./" p then
            match Memory.get mem1 "last_folder" with
            | some lf => if lf = "" then params
                         else setAssoc params "path" (path_join lf (dropPy p 2))
            | none => params
          else params
        let newPath := match findAssoc params1 "path" with
                       | some q => q
                       | none => p
        (params1, Memory.set env.home mem1 "last_file" newPath)
    | none => (params, mem1)
  else (params, mem1)

/-- Record of one executed step: the dispatched intent, its (rewritten)
params, the built items and the aggregated observation. -/
structure ExecRecord where
  intent : String
  params : List (String × String)
  cmds : List Item
  obs : Observation
deriving Repr, DecidableEq

/-- Abbreviated rendering of a params dict for the memory log line
(the exact textual format of the log is irrelevant to every claim). -/
def paramsText : List (String × String) → String
  | [] => ""
  | (k, v) :: rest => k ++ "=" ++ v ++ ";" ++ paramsText rest

/-- The record built by the execute phase (lines 330-335). -/
def mkRecord (env : Env) (i : String) (params0 : List (String × String))
    (mem : Memory) (spec : Spec) : ExecRecord :=
  let params1 := (hintStep env i params0 mem).1
  let cmds := build_cmds env.render spec params1
  ⟨i, params1, cmds, execute_and_observe (item_obs env) cmds⟩

/-- The memory state after one executed step (lines 313-342): hints, then
the `MIA: ran ...` line, then `OBS:`/`ERR:` lines truncated to 500
characters when the respective field is non-empty. -/
def mkMemAfter (env : Env) (i : String) (params0 : List (String × String))
    (mem : Memory) (spec : Spec) : Memory :=
  let pm := hintStep env i params0 mem
  let cmds := build_cmds env.render spec pm.1
  let obs := execute_and_observe (item_obs env) cmds
  let m2 := Memory.add pm.2
    ("MIA: ran " ++ i ++ " params=" ++ paramsText pm.1 ++ " -> code=" ++ toString obs.code)
  let m3 := if obs.output = "" then m2 else Memory.add m2 ("OBS: " ++ takePy obs.output 500)
  if obs.error = "" then m3 else Memory.add m3 ("ERR: " ++ takePy obs.error 500)

/-- Outcome of one iteration of the `for step in range(...)` body. -/
inductive StepResult where
  | invalidJson
  | stopped (report : String)
  | disallowed (intent : Option String)
  | unknownIntent (intent : String)
  | executed (rec : ExecRecord) (mem : Memory) (seen : List String)
deriving Repr, DecidableEq

/-- Lines 323-347: registry lookup (a `KeyError` breaks the loop), build,
execute, record the intent into `seen_actions`, update memory. -/
def execPhase (env : Env) (i : String) (params0 : List (String × String))
    (mem : Memory) (seen : List String) : StepResult :=
  match env.registry i with
  | none => StepResult.unknownIntent i
  | some spec =>
      StepResult.executed (mkRecord env i params0 mem spec)
        (mkMemAfter env i params0 mem spec) (seen ++ [i])

/-- Lines 271-347 after a well-formed oracle dict was obtained: read-loop
guard, premature-stop guard, the `stop` break, the whitelist check
(fail-closed, before any registry/build/execute work), then the execute
phase. -/
def stepAfterParse (env : Env) (goal : String) (data : OracleResponse)
    (mem : Memory) (seen : List String) : StepResult :=
  if computeStop goal data.stop seen then StepResult.stopped data.report
  else
    match effIntent data seen with
    | none => StepResult.disallowed none
    | some i =>
        if env.allowed_intents.contains i then execPhase env i data.params mem seen
        else StepResult.disallowed (some i)

/-- One full iteration of the planner loop body, from the `_ask` call on. -/
def runStep (env : Env) (goal : String) (reply : EngineReply)
    (mem : Memory) (seen : List String) : StepResult :=
  match ask reply with
  | none => StepResult.invalidJson
  | some data => stepAfterParse env goal data mem seen

/-- Why `Planner.run`'s loop ended. -/
inductive FinalReason where
  | invalidJson
  | stoppedByModel (report : String)
  | disallowedIntent (intent : Option String)
  | unknownIntent (intent : String)
  | maxSteps
deriving Repr, DecidableEq

/-- The `for step in range(1, max_steps + 1)` loop: the oracle is modelled
as a function of the step index (for the universally quantified theorems
this covers every prompt-dependent oracle, since a deterministic run
induces one reply per step). Returns the executed-step trace in order and
the reason the loop ended. -/
def runAux (env : Env) (goal : String) (oracle : Nat → EngineReply) :
    Nat → Nat → Memory → List String → List ExecRecord × FinalReason
  | 0, _, _, _ => ([], FinalReason.maxSteps)
  | Nat.succ fuel, idx, mem, seen =>
      match runStep env goal (oracle idx) mem seen with
      | StepResult.invalidJson => ([], FinalReason.invalidJson)
      | StepResult.stopped r => ([], FinalReason.stoppedByModel r)
      | StepResult.disallowed i => ([], FinalReason.disallowedIntent i)
      | StepResult.unknownIntent i => ([], FinalReason.unknownIntent i)
      | StepResult.executed rec mem' seen' =>
          let rest := runAux env goal oracle fuel (idx + 1) mem' seen'
          (rec :: rest.1, rest.2)

/-- `Planner.run(goal)`: fresh `Memory()`, fresh `seen_actions = []`,
at most `max_steps` iterations starting at step 1. -/
def runLoop (env : Env) (goal : String) (oracle : Nat → EngineReply) :
    List ExecRecord × FinalReason :=
  runAux env goal oracle env.max_steps 1 initMemory []

/-- Shape test used by the `Executor.run` frame theorem. -/
def Item.isUnknown : Item → Bool
  | Item.unknown _ => true
  | _ => false

/-! ### Helper lemmas about the executor/observer aggregation -/

/-- The stripped non-empty per-item outputs, in execution order. -/
def outsOf (f : Item → Observation) (cmds : List Item) : List String :=
  cmds.filterMap fun it =>
    if (f it).output = "" then none else some (trimPy (f it).output)

/-- The stripped non-empty per-item errors, in execution order. -/
def errsOf (f : Item → Observation) (cmds : List Item) : List String :=
  cmds.filterMap fun it =>
    if (f it).error = "" then none else some (trimPy (f it).error)

/-- The running `code_final` after all items, starting from `code`. -/
def lastCodeOf (f : Item → Observation) (code : Int) : List Item → Int
  | [] => code
  | it :: rest => lastCodeOf f (f it).code rest

theorem execGo_eq (f : Item → Observation) :
    ∀ (cmds : List Item) (outs errs : List String) (code : Int),
      execGo f cmds outs errs code =
        (outs ++ outsOf f cmds, errs ++ errsOf f cmds, lastCodeOf f code cmds) := by
  intro cmds
  induction cmds with
  | nil => intro outs errs code; simp [execGo, outsOf, errsOf, lastCodeOf]
  | cons it rest ih =>
      intro outs errs code
      by_cases h1 : (f it).output = "" <;> by_cases h2 : (f it).error = "" <;>
        simp [execGo, outsOf, errsOf, lastCodeOf, List.filterMap_cons, h1, h2, ih]

theorem lastCodeOf_append (f : Item → Observation) :
    ∀ (l : List Item) (code : Int) (a : Item),
      lastCodeOf f code (l ++ [a]) = (f a).code := by
  intro l
  induction l with
  | nil => intro code a; rfl
  | cons b t ih => intro code a; simpa [lastCodeOf] using ih (f b).code a

/-! ### Inversion lemmas about one planner step -/

theorem execPhase_ne_stopped (env : Env) (i : String)
    (params0 : List (String × String)) (mem : Memory) (seen : List String)
    (r : String) : execPhase env i params0 mem seen ≠ StepResult.stopped r := by
  unfold execPhase
  cases env.registry i <;> simp

theorem stepAfterParse_executed {env : Env} {goal : String}
    {data : OracleResponse} {mem : Memory} {seen : List String}
    {rec : ExecRecord} {mem' : Memory} {seen' : List String}
    (h : stepAfterParse env goal data mem seen = StepResult.executed rec mem' seen') :
    effIntent data seen = some rec.intent ∧
    env.allowed_intents.contains rec.intent = true ∧
    seen' = seen ++ [rec.intent] := by
  unfold stepAfterParse at h
  by_cases hs : computeStop goal data.stop seen = true
  · rw [if_pos hs] at h; exact absurd h (by simp)
  · rw [if_neg hs] at h
    cases he : effIntent data seen with
    | none => rw [he] at h; exact absurd h (by simp)
    | some i =>
        rw [he] at h
        dsimp only at h
        by_cases hc : env.allowed_intents.contains i = true
        · rw [if_pos hc] at h
          unfold execPhase at h
          cases hr : env.registry i with
          | none => rw [hr] at h; exact absurd h (by simp)
          | some spec =>
              rw [hr] at h
              injection h with h1 h2 h3
              have hi : rec.intent = i := by rw [← h1]; simp [mkRecord]
              rw [hi]
              exact ⟨rfl, hc, h3.symm⟩
        · rw [if_neg hc] at h; exact absurd h (by simp)

theorem runStep_executed {env : Env} {goal : String} {reply : EngineReply}
    {mem : Memory} {seen : List String} {rec : ExecRecord} {mem' : Memory}
    {seen' : List String}
    (h : runStep env goal reply mem seen = StepResult.executed rec mem' seen') :
    ∃ data, ask reply = some data ∧
      stepAfterParse env goal data mem seen = StepResult.executed rec mem' seen' := by
  unfold runStep at h
  cases ha : ask reply with
  | none => rw [ha] at h; exact absurd h (by simp)
  | some data => rw [ha] at h; exact ⟨data, rfl, h⟩

theorem effIntent_read_not_seen {data : OracleResponse} {seen : List String}
    (h : effIntent data seen = some "read_file") : "read_file" ∉ seen := by
  unfold effIntent at h
  by_cases hc : data.intent = some "read_file" ∧ 1 ≤ seen.count "read_file"
  · rw [if_pos hc] at h; exact absurd h (by decide)
  · rw [if_neg hc] at h
    intro hmem
    exact hc ⟨h, List.one_le_count_iff.mpr hmem⟩

/-! ### Loop-level invariants -/

theorem runAux_intents_allowed (env : Env) (goal : String)
    (oracle : Nat → EngineReply) :
    ∀ (fuel idx : Nat) (mem : Memory) (seen : List String) (rec : ExecRecord),
      rec ∈ (runAux env goal oracle fuel idx mem seen).1 →
      env.allowed_intents.contains rec.intent = true := by
  intro fuel
  induction fuel with
  | zero => intro idx mem seen rec hmem; simp [runAux] at hmem
  | succ n ih =>
      intro idx mem seen rec hmem
      cases hstep : runStep env goal (oracle idx) mem seen with
      | invalidJson => simp [runAux, hstep] at hmem
      | stopped r => simp [runAux, hstep] at hmem
      | disallowed i => simp [runAux, hstep] at hmem
      | unknownIntent i => simp [runAux, hstep] at hmem
      | executed rec0 mem' seen' =>
          simp only [runAux, hstep, List.mem_cons] at hmem
          rcases hmem with rfl | hmem
          · obtain ⟨data, -, hsap⟩ := runStep_executed hstep
            exact (stepAfterParse_executed hsap).2.1
          · exact ih (idx + 1) mem' seen' rec hmem

theorem runAux_length_le (env : Env) (goal : String) (oracle : Nat → EngineReply) :
    ∀ (fuel idx : Nat) (mem : Memory) (seen : List String),
      (runAux env goal oracle fuel idx mem seen).1.length ≤ fuel := by
  intro fuel
  induction fuel with
  | zero => intro idx mem seen; simp [runAux]
  | succ n ih =>
      intro idx mem seen
      cases hstep : runStep env goal (oracle idx) mem seen with
      | invalidJson => simp [runAux, hstep]
      | stopped r => simp [runAux, hstep]
      | disallowed i => simp [runAux, hstep]
      | unknownIntent i => simp [runAux, hstep]
      | executed rec0 mem' seen' =>
          simp only [runAux, hstep, List.length_cons]
          exact Nat.succ_le_succ (ih (idx + 1) mem' seen')

theorem runAux_no_read_when_seen (env : Env) (goal : String)
    (oracle : Nat → EngineReply) :
    ∀ (fuel idx : Nat) (mem : Memory) (seen : List String),
      "read_file" ∈ seen →
      ((runAux env goal oracle fuel idx mem seen).1.map ExecRecord.intent).count "read_file" = 0 := by
  intro fuel
  induction fuel with
  | zero => intro idx mem seen hseen; simp [runAux]
  | succ n ih =>
      intro idx mem seen hseen
      cases hstep : runStep env goal (oracle idx) mem seen with
      | invalidJson => simp [runAux, hstep]
      | stopped r => simp [runAux, hstep]
      | disallowed i => simp [runAux, hstep]
      | unknownIntent i => simp [runAux, hstep]
      | executed rec0 mem' seen' =>
          simp only [runAux, hstep, List.map_cons]
          obtain ⟨data, -, hsap⟩ := runStep_executed hstep
          obtain ⟨heff, -, hseen'⟩ := stepAfterParse_executed hsap
          have hne : rec0.intent ≠ "read_file" := by
            intro hr
            exact effIntent_read_not_seen (hr ▸ heff) hseen
          rw [List.count_cons_of_ne (Ne.symm hne)]
          exact ih (idx + 1) mem' seen' (hseen' ▸ List.mem_append_left _ hseen)

theorem runAux_read_count_le_one (env : Env) (goal : String)
    (oracle : Nat → EngineReply) :
    ∀ (fuel idx : Nat) (mem : Memory) (seen : List String),
      "read_file" ∉ seen →
      ((runAux env goal oracle fuel idx mem seen).1.map ExecRecord.intent).count "read_file" ≤ 1 := by
  intro fuel
  induction fuel with
  | zero => intro idx mem seen hseen; simp [runAux]
  | succ n ih =>
      intro idx mem seen hseen
      cases hstep : runStep env goal (oracle idx) mem seen with
      | invalidJson => simp [runAux, hstep]
      | stopped r => simp [runAux, hstep]
      | disallowed i => simp [runAux, hstep]
      | unknownIntent i => simp [runAux, hstep]
      | executed rec0 mem' seen' =>
          simp only [runAux, hstep, List.map_cons]
          obtain ⟨data, -, hsap⟩ := runStep_executed hstep
          obtain ⟨-, -, hseen'⟩ := stepAfterParse_executed hsap
          by_cases hr : rec0.intent = "read_file"
          · have hmem' : "read_file" ∈ seen' := by
              rw [hseen', ← hr]; exact List.mem_append_right _ (List.mem_singleton_self _)
            have h0 := runAux_no_read_when_seen env goal oracle n (idx + 1) mem' seen' hmem'
            rw [List.count_cons, h0]
            simp [hr]
          · rw [List.count_cons_of_ne (Ne.symm hr)]
            have : "read_file" ∉ seen' := by
              rw [hseen']
              intro hmem
              rcases List.mem_append.mp hmem with hmem | hmem
              · exact hseen hmem
              · exact hr (List.mem_singleton.mp hmem).symm
            exact ih (idx + 1) mem' seen' this

/-! ### Keyword-heuristic lemmas -/

theorem strIn_lower_of_strIn {a goal : String} (hlow : lowerPy a = a)
    (h : strIn a goal = true) : strIn a (lowerPy goal) = true := by
  unfold strIn at h ⊢
  rw [decide_eq_true_iff] at h ⊢
  have hmap := List.IsInfix.map Char.toLower h
  have hdata : (lowerPy a).data = a.data.map Char.toLower := rfl
  rw [← hdata, hlow] at hmap
  exact hmap

theorem strIn_trans {a b c : String} (h1 : strIn a b = true)
    (h2 : strIn b c = true) : strIn a c = true := by
  unfold strIn at h1 h2 ⊢
  rw [decide_eq_true_iff] at h1 h2 ⊢
  exact h1.trans h2

theorem needsCreate_of_create_goal {goal : String}
    (h : strIn "create a file" goal = true) : needsCreate goal = true := by
  have h1 : strIn "create a file" (lowerPy goal) = true :=
    strIn_lower_of_strIn (by decide) h
  have h2 : strIn "create" (lowerPy goal) = true := strIn_trans (by decide) h1
  unfold needsCreate
  simp [h2]

theorem computeStop_false_of_create_goal {goal : String} {seen : List String}
    (hg : strIn "create a file" goal = true)
    (hseen : ∀ a ∈ seen, MUTATION_INTENTS.contains a = false) :
    computeStop goal true seen = false := by
  have hnc := needsCreate_of_create_goal hg
  have hdc : didCreate seen = false := by
    unfold didCreate
    rw [List.any_eq_false]
    intro a ha
    simpa using hseen a ha
  have hde : didEdit seen = false := by
    unfold didEdit
    rw [List.any_eq_false]
    intro a ha
    have hm := hseen a ha
    simp only [Bool.or_eq_true, beq_iff_eq, not_or]
    constructor
    · intro hcontra; rw [hcontra] at hm; exact absurd hm (by decide)
    · intro hcontra; rw [hcontra] at hm; exact absurd hm (by decide)
  cases hne : needsEdit goal <;> simp [computeStop, hne, hnc, hdc, hde]

/-! ### `Executor.run` frame lemma -/

theorem executorGo_filter_unknown (approve : Nat → Bool) (shellCode : String → Int)
    (plugCode : String → List (String × String) → Except String Int)
    (confirm : Bool) :
    ∀ (cmds : List Item) (code : Int) (k : Nat),
      executorGo approve shellCode plugCode confirm cmds code k =
        executorGo approve shellCode plugCode confirm
          (cmds.filter fun c => !(Item.isUnknown c)) code k := by
  intro cmds
  induction cmds with
  | nil => intro code k; rfl
  | cons it rest ih =>
      intro code k
      cases it with
      | shell c =>
          by_cases hc : (confirm && !(approve k)) = true <;>
            simp [executorGo, List.filter_cons, Item.isUnknown, hc, ih]
      | plugin p ps => simp [executorGo, List.filter_cons, Item.isUnknown, ih]
      | unknown r => simp [executorGo, List.filter_cons, Item.isUnknown, ih]

/-! ### Memory lemmas -/

theorem findAssoc_setAssoc :
    ∀ (l : List (String × String)) (k v : String),
      findAssoc (setAssoc l k v) k = some v := by
  intro l
  induction l with
  | nil => intro k v; simp [setAssoc, findAssoc]
  | cons kv rest ih =>
      intro k v
      obtain ⟨k', v'⟩ := kv
      by_cases h : k' = k
      · simp [setAssoc, findAssoc, h]
      · simp [setAssoc, findAssoc, h, ih]

theorem expanduser_tilde_slash (home : String) :
    expanduser home "~/x" = home ++ "/x" := by
  unfold expanduser
  rw [if_neg (by decide), if_pos (by decide)]
  have h : dropPy "~/x" 1 = "/x" := by decide
  rw [h]

/-! ### Concrete fixtures for witnesses and counterexamples -/

/-- A concrete environment: default whitelist, empty registry, trivially
succeeding shell and plugin backends. -/
def baseEnv : Env :=
  { allowed_intents := SAFE_INTENTS_DEFAULT
  , max_steps := 5
  , home := "/home/user"
  , registry := fun _ => none
  , render := fun t _ => t
  , shellExec := fun _ => Except.ok (0, "", "")
  , pluginExec := fun _ _ => ("", Except.ok 0) }

/-- Two shell commands: `c1` exits 0 with stdout `A`, `c2` exits 2 with
stdout `B`. -/
def obsEnv : Env :=
  { baseEnv with shellExec := fun c =>
      if c = "c1" then Except.ok (0, "A", "") else Except.ok (2, "B", "") }

/-- A plugin backend that prints some output and then raises. -/
def plugFailEnv : Env :=
  { baseEnv with pluginExec := fun _ _ =>
      ("partial output", Except.error ("boom", "Traceback (most recent call last)")) }

/-! ### Claim theorems -/

/-- C5: for every non-empty executed sequence, the aggregated Observation
carries the status code of the last executed item (not the first failure),
and stdout/stderr are the per-item outputs stripped of surrounding
whitespace, concatenated with newlines in execution order (empty pieces
skipped, exactly as `"\n".join(p for p in parts if p)` does). -/
theorem observation_aggregation (f : Item → Observation) (cmds : List Item)
    (h : cmds ≠ []) :
    (execute_and_observe f cmds).code = (f (cmds.getLast h)).code ∧
    (execute_and_observe f cmds).output =
      joinPy "\n" ((outsOf f cmds).filter fun s => s != "") ∧
    (execute_and_observe f cmds).error =
      joinPy "\n" ((errsOf f cmds).filter fun s => s != "") := by
  have hgo := execGo_eq f cmds [] [] 0
  have hobs : execute_and_observe f cmds =
      ⟨lastCodeOf f 0 cmds,
       joinPy "\n" ((outsOf f cmds).filter fun s => s != ""),
       joinPy "\n" ((errsOf f cmds).filter fun s => s != "")⟩ := by
    simp only [execute_and_observe]
    rw [hgo]
    simp
  rw [hobs]
  refine ⟨?_, rfl, rfl⟩
  conv_lhs => rw [← List.dropLast_append_getLast h]
  exact lastCodeOf_append f _ 0 _

/-- Witness for C5: the spec's own two-shell instance — first item exits 0
with stdout `A`, second exits 2 with stdout `B`; the Observation has
status code 2 and stdout `A\nB`. -/
theorem observation_aggregation_witness :
    ([Item.shell "c1", Item.shell "c2"] ≠ ([] : List Item)) ∧
    (execute_and_observe (item_obs obsEnv) [Item.shell "c1", Item.shell "c2"]).code = 2 ∧
    (execute_and_observe (item_obs obsEnv) [Item.shell "c1", Item.shell "c2"]).output = "A\nB" := by
  have hne : [Item.shell "c1", Item.shell "c2"] ≠ ([] : List Item) := by decide
  obtain ⟨h1, h2, -⟩ :=
    observation_aggregation (item_obs obsEnv) [Item.shell "c1", Item.shell "c2"] hne
  have hlast : [Item.shell "c1", Item.shell "c2"].getLast hne = Item.shell "c2" := rfl
  rw [hlast] at h1
  exact ⟨hne, h1.trans (by decide), h2.trans (by decide)⟩

/-- C7: an exception raised by a plugin callable is caught inside
`_capture_plugin_call` and converted into an Observation with status code
1 whose error field carries the exception message and traceback, while the
output printed by the plugin before failing is still captured; nothing
propagates (the function is total). -/
theorem plugin_exception_contained (env : Env) (path : String)
    (params : List (String × String)) (printed msg tb : String)
    (h : env.pluginExec path params = (printed, Except.error (msg, tb))) :
    capture_plugin_call env path params = ⟨1, printed, msg ++ "\n" ++ tb⟩ := by
  unfold capture_plugin_call
  rw [h]

/-- Witness for C7 at a concrete failing plugin. -/
theorem plugin_exception_contained_witness :
    capture_plugin_call plugFailEnv "files.create_file" [("path", "x")] =
      ⟨1, "partial output", "boom" ++ "\n" ++ "Traceback (most recent call last)"⟩ :=
  plugin_exception_contained plugFailEnv "files.create_file" [("path", "x")]
    "partial output" "boom" "Traceback (most recent call last)" rfl

/-- C8 counterexample: in the planner's `_execute_and_observe`, an unknown
item does NOT leave the running status code unchanged — appended after a
successful shell item it flips the aggregate code from 0 to 1 and
contributes an error line, so the aggregate differs from the sequence
without the unknown item. -/
theorem unknown_item_sets_error_code :
    (execute_and_observe (item_obs baseEnv) [Item.shell "true", Item.unknown "obj"]).code = 1 ∧
    (execute_and_observe (item_obs baseEnv) [Item.shell "true"]).code = 0 ∧
    (execute_and_observe (item_obs baseEnv) [Item.shell "true", Item.unknown "obj"]).error =
      "Unknown command type: obj" :=
  ⟨rfl, rfl, rfl⟩

/-- C8 (amended): in `Executor.run` (`core/executor.py`) unknown items are
logged no-ops — dropping them from the sequence leaves the aggregate
status code unchanged; in the planner's `_execute_and_observe`
(`self_loop.py`) an unknown item instead yields
`Observation(code=1, error="Unknown command type: ...")` and overwrites
the running status code. -/
theorem executor_unknown_items_are_noops :
    (∀ (approve : Nat → Bool) (shellCode : String → Int)
        (plugCode : String → List (String × String) → Except String Int)
        (confirm : Bool) (cmds : List Item),
        executorRun approve shellCode plugCode confirm cmds =
          executorRun approve shellCode plugCode confirm
            (cmds.filter fun c => !(Item.isUnknown c))) ∧
    (∀ (env : Env) (r : String),
        item_obs env (Item.unknown r) = ⟨1, "", "Unknown command type: " ++ r⟩) :=
  ⟨fun approve shellCode plugCode confirm cmds =>
      executorGo_filter_unknown approve shellCode plugCode confirm cmds 0 0,
    fun _ _ => rfl⟩

/-- C9: `Memory.set` stores the home-expanded form of the value and
`Memory.get` returns exactly the stored value, or the supplied default
when the key is absent; in particular storing `~/x` yields the expanded
absolute path (starts with `/` whenever the home directory does) and not
the literal `~/x`. -/
theorem memory_context_roundtrip :
    (∀ (home : String) (m : Memory) (k v : String),
        Memory.get (Memory.set home m k v) k = some (expanduser home v)) ∧
    (∀ (m : Memory) (k d : String),
        Memory.get m k = none → Memory.getOr m k d = d) ∧
    (∀ (home : String) (m : Memory) (k : String), home.data.head? = some '/' →
        Memory.get (Memory.set home m k "~/x") k = some (home ++ "/x") ∧
        (home ++ "/x").data.head? = some '/' ∧ home ++ "/x" ≠ "~/x") := by
  refine ⟨?_, ?_, ?_⟩
  · intro home m k v
    exact findAssoc_setAssoc m.state k (expanduser home v)
  · intro m k d hnone
    unfold Memory.getOr
    unfold Memory.get at hnone
    rw [hnone]
  · intro home m k hhead
    have habs : (home ++ "/x").data.head? = some '/' := by
      rw [String.data_append]
      cases hd : home.data with
      | nil => rw [hd] at hhead; cases hhead
      | cons c t =>
          rw [hd] at hhead
          injection hhead with hc
          rw [hc]
          rfl
    refine ⟨?_, habs, ?_⟩
    · have h1 : Memory.get (Memory.set home m k "~/x") k =
          some (expanduser home "~/x") := findAssoc_setAssoc m.state k _
      rw [h1, expanduser_tilde_slash]
    · intro heq
      have hcontr := congrArg (fun s => s.data.head?) heq
      dsimp only at hcontr
      rw [habs] at hcontr
      exact absurd hcontr (by decide)

/-- Witness for C9 at `home = "/home/user"`, key `last_folder`,
value `~/x`. -/
theorem memory_context_roundtrip_witness :
    Memory.get (Memory.set "/home/user" initMemory "last_folder" "~/x") "last_folder" =
      some "/home/user/x" ∧ ("/home/user/x" : String) ≠ "~/x" ∧
    Memory.getOr initMemory "missing" "dflt" = "dflt" := by
  have happ : ("/home/user" ++ "/x" : String) = "/home/user/x" := by decide
  obtain ⟨h1, -, h3⟩ :=
    memory_context_roundtrip.2.2 "/home/user" initMemory "last_folder" (by decide)
  rw [happ] at h1 h3
  exact ⟨h1, h3, memory_context_roundtrip.2.1 initMemory "missing" "dflt" rfl⟩

/-- C10: when the oracle engine raises, `_ask` converts the failure into a
stop-requesting response with report `engine error: ...` and no intent, and
the step never executes anything: it ends either through the stop branch
or — when the premature-stop guard overrides stop to false — through the
whitelist check, because the `none` intent is never a member of the
whitelist.  `runStep` is a total function, so nothing propagates out of
`Planner.run`. -/
theorem oracle_error_stops_without_execution :
    (∀ msg : String,
        ask (EngineReply.raise msg) =
          some ⟨"", none, [], true, "engine error: " ++ msg⟩) ∧
    (∀ (env : Env) (goal : String) (mem : Memory) (seen : List String) (msg : String),
        runStep env goal (EngineReply.raise msg) mem seen =
            StepResult.stopped ("engine error: " ++ msg) ∨
        runStep env goal (EngineReply.raise msg) mem seen =
            StepResult.disallowed none) := by
  refine ⟨fun msg => rfl, ?_⟩
  intro env goal mem seen msg
  unfold runStep
  cases hcs : computeStop goal true seen
  · right
    simp [ask, stepAfterParse, hcs, effIntent]
  · left
    simp [ask, stepAfterParse, hcs]

/-- C1: (a) every intent in the executed trace of any session is a member
of `allowed_intents`, whatever the oracle requests; (b) when the effective
intent is not whitelisted (and the step is not stopping), the step result
is `disallowed` — a constructor carrying no built items and no
observation, produced before any registry lookup, action building or
execution (the conclusion holds for every `env.registry`/backend). -/
theorem whitelist_enforced :
    (∀ (env : Env) (goal : String) (oracle : Nat → EngineReply) (rec : ExecRecord),
        rec ∈ (runLoop env goal oracle).1 →
        env.allowed_intents.contains rec.intent = true) ∧
    (∀ (env : Env) (goal : String) (reply : EngineReply) (mem : Memory)
        (seen : List String) (data : OracleResponse) (i : String),
        ask reply = some data →
        effIntent data seen = some i →
        env.allowed_intents.contains i = false →
        computeStop goal data.stop seen = false →
        runStep env goal reply mem seen = StepResult.disallowed (some i)) := by
  constructor
  · intro env goal oracle rec hmem
    exact runAux_intents_allowed env goal oracle env.max_steps 1 initMemory [] rec hmem
  · intro env goal reply mem seen data i hdata heff hc hcs
    have hc' : i ∉ env.allowed_intents := by simpa using hc
    unfold runStep
    rw [hdata]
    simp [stepAfterParse, hcs, heff, hc, hc']

/-- Witness for C1: a concrete oracle request for an intent outside the
default whitelist is rejected without execution. -/
theorem whitelist_enforced_witness :
    runStep baseEnv "g" (EngineReply.ok ⟨"", some "rm_rf", [], false, ""⟩)
        initMemory [] = StepResult.disallowed (some "rm_rf") :=
  whitelist_enforced.2 baseEnv "g" (EngineReply.ok ⟨"", some "rm_rf", [], false, ""⟩)
    initMemory [] ⟨"", some "rm_rf", [], false, ""⟩ "rm_rf" rfl rfl rfl rfl

/-- Registry/backends for the C2 counterexample: `create_folder` is a
plugin that always succeeds. -/
def c2Env : Env :=
  { baseEnv with registry := fun i =>
      (if i = "create_folder" then some (Spec.plugin "files.create_folder") else none) }

/-- Oracle for the C2 counterexample: the same `(intent, params)` pair on
steps 1 and 2, then a stop request. -/
def c2Oracle : Nat → EngineReply := fun n =>
  if n ≤ 2 then EngineReply.ok ⟨"", some "create_folder", [("path", "x")], false, ""⟩
  else EngineReply.ok ⟨"", none, [], true, "done"⟩

/-- C2 counterexample: the same `(intent, params)` tuple, first executed
with status 0, is executed a second time — the execution count for the
tuple reaches 2 and the loop ends by the model's stop request, not by any
guard.  The code records only intent names in `seen_actions` and has no
repeated-success check. -/
theorem repeated_success_reexecuted :
    ((runLoop c2Env "g" c2Oracle).1.map fun r => (r.intent, r.params, r.obs.code)) =
      [("create_folder", [("path", "x")], (0 : Int)),
       ("create_folder", [("path", "x")], (0 : Int))] ∧
    (runLoop c2Env "g" c2Oracle).2 = FinalReason.stoppedByModel "done" :=
  ⟨rfl, rfl⟩

/-- C2 (amended): the planner has no repeated-success idempotence guard —
a tuple already executed successfully may be executed again.  The only
anti-repetition mechanism is the read-loop override, which does bound one
intent: `read_file` is executed at most once per session. -/
theorem read_file_executed_at_most_once (env : Env) (goal : String)
    (oracle : Nat → EngineReply) :
    ((runLoop env goal oracle).1.map ExecRecord.intent).count "read_file" ≤ 1 :=
  runAux_read_count_le_one env goal oracle env.max_steps 1 initMemory [] (by simp)

/-- Registry/backends for the C3 counterexample: two distinct plugins that
fail with the same status 2, one that succeeds. -/
def c3Env : Env :=
  { baseEnv with
      registry := fun i =>
        (if i = "create_folder" then some (Spec.plugin "plug.a")
         else if i = "ping_host" then some (Spec.plugin "plug.b")
         else if i = "list_home" then some (Spec.plugin "plug.c") else none),
      pluginExec := fun p _ =>
        (if p = "plug.c" then ("", Except.ok 0) else ("", Except.ok 2)) }

/-- Oracle for the C3 counterexample: two distinct failing actions, then a
third action, then stop. -/
def c3Oracle : Nat → EngineReply := fun n =>
  if n = 1 then EngineReply.ok ⟨"", some "create_folder", [], false, ""⟩
  else if n = 2 then EngineReply.ok ⟨"", some "ping_host", [], false, ""⟩
  else if n = 3 then EngineReply.ok ⟨"", some "list_home", [], false, ""⟩
  else EngineReply.ok ⟨"", none, [], true, "done"⟩

/-- C3 counterexample: after two distinct recorded actions have produced
the same non-zero status (2), the loop does NOT stop — a third step is
still executed.  The code never inspects status codes for guarding. -/
theorem repeated_failure_loop_continues :
    ((runLoop c3Env "g" c3Oracle).1.map fun r => (r.intent, r.obs.code)) =
      [("create_folder", (2 : Int)), ("ping_host", (2 : Int)),
       ("list_home", (0 : Int))] :=
  rfl

/-- C3 (amended): there is no repeated-failure guard; churning on failing
actions is bounded only by the step budget — the number of executed
actions in any session never exceeds `max_steps`. -/
theorem trace_length_le_max_steps (env : Env) (goal : String)
    (oracle : Nat → EngineReply) :
    (runLoop env goal oracle).1.length ≤ env.max_steps :=
  runAux_length_le env goal oracle env.max_steps 1 initMemory []

/-- Oracle for the C4 counterexample: a stop request carrying no intent. -/
def c4Oracle : Nat → EngineReply := fun _ =>
  EngineReply.ok ⟨"", none, [], true, "done"⟩

/-- C4 counterexample: goal `create a file`, no mutation recorded, oracle
says stop with a `null` intent — stop IS overridden to false, yet the
loop still terminates on that very step, through the whitelist check on
the `none` intent (final reason `disallowedIntent none`, empty trace). -/
theorem create_goal_stop_override_still_terminates :
    computeStop "create a file" true [] = false ∧
    runLoop baseEnv "create a file" c4Oracle =
      ([], FinalReason.disallowedIntent none) :=
  ⟨rfl, rfl⟩

/-- C4 (amended): for every goal containing `create a file` with no
mutation intent recorded in `seen_actions`, a stop-requesting oracle
response has its stop overridden to false — the step never ends through
the stop branch — but the loop may still terminate on that step via the
whitelist check when the response's intent is not allowed. -/
theorem create_goal_stop_suppressed (env : Env) (goal : String)
    (reply : EngineReply) (mem : Memory) (seen : List String)
    (data : OracleResponse)
    (hdata : ask reply = some data) (hstop : data.stop = true)
    (hg : strIn "create a file" goal = true)
    (hseen : ∀ a ∈ seen, MUTATION_INTENTS.contains a = false) :
    computeStop goal data.stop seen = false ∧
    ∀ r, runStep env goal reply mem seen ≠ StepResult.stopped r := by
  have hcs : computeStop goal data.stop seen = false := by
    rw [hstop]
    exact computeStop_false_of_create_goal hg hseen
  refine ⟨hcs, ?_⟩
  intro r hcontra
  unfold runStep at hcontra
  rw [hdata] at hcontra
  dsimp only at hcontra
  unfold stepAfterParse at hcontra
  rw [hcs] at hcontra
  simp only [Bool.false_eq_true, if_false] at hcontra
  cases he : effIntent data seen with
  | none => rw [he] at hcontra; exact absurd hcontra (by simp)
  | some i =>
      rw [he] at hcontra
      dsimp only at hcontra
      by_cases hc : env.allowed_intents.contains i = true
      · rw [if_pos hc] at hcontra
        exact execPhase_ne_stopped env i data.params mem seen r hcontra
      · rw [if_neg hc] at hcontra
        exact absurd hcontra (by simp)

/-- Witness for C4 (amended) at goal `create a file`, empty
`seen_actions`, and a stop-requesting response with no intent. -/
theorem create_goal_stop_suppressed_witness :
    computeStop "create a file" true [] = false ∧
    ∀ r, runStep baseEnv "create a file"
        (EngineReply.ok ⟨"", none, [], true, "done"⟩) initMemory [] ≠
      StepResult.stopped r :=
  create_goal_stop_suppressed baseEnv "create a file"
    (EngineReply.ok ⟨"", none, [], true, "done"⟩) initMemory []
    ⟨"", none, [], true, "done"⟩ rfl rfl (by decide)
    (fun a ha => absurd ha (List.not_mem_nil a))

/-- Registry/backends for the C6 fixtures: `read_file` and `edit_file`
are known plugins. -/
def c6Env : Env :=
  { baseEnv with
      registry := fun i =>
        (if i = "read_file" then some (Spec.plugin "files.read_file")
         else if i = "edit_file" then some (Spec.plugin "files.edit_file")
         else none),
      pluginExec := fun _ _ => ("content", Except.ok 0) }

/-- Oracle for the C6 counterexample: `read_file` twice, the second time
with `stop = true`. -/
def c6Oracle : Nat → EngineReply := fun n =>
  if n = 1 then EngineReply.ok ⟨"", some "read_file", [("path", "f")], false, ""⟩
  else EngineReply.ok ⟨"", some "read_file", [], true, "r2"⟩

/-- C6 counterexample: on the repeated `read_file` the guard does fire and
overrides the intent to `edit_file`, but no stop-suppression takes place:
with the oracle's own `stop = true` (and a goal without create/edit
keywords) the loop stops by the model on that step and the forced
`edit_file` is never executed — the trace holds only the first
`read_file`.  (The guard's own `stop = True` assignment in the source is
dead: `stop` is recomputed from `data.get("stop")` immediately after.) -/
theorem read_guard_stop_not_suppressed :
    effIntent ⟨"", some "read_file", [], true, "r2"⟩ ["read_file"] = some "edit_file" ∧
    (runLoop c6Env "g" c6Oracle).1.map ExecRecord.intent = ["read_file"] ∧
    (runLoop c6Env "g" c6Oracle).2 = FinalReason.stoppedByModel "r2" :=
  ⟨rfl, rfl, rfl⟩

/-- C6 (amended): when the oracle returns `read_file` and `read_file` is
already in `seen_actions`, the effective intent is overridden to
`edit_file`; no stop-suppression flag exists — the step continues with
the forced `edit_file` exactly when the recomputed stop decision is false,
e.g. whenever the oracle's own `stop` field is false and `edit_file` is
whitelisted and registered. -/
theorem read_guard_forces_edit_intent (env : Env) (goal : String)
    (reply : EngineReply) (mem : Memory) (seen : List String)
    (data : OracleResponse) (spec : Spec)
    (hdata : ask reply = some data) (hintent : data.intent = some "read_file")
    (hseen : "read_file" ∈ seen) (hstop : data.stop = false)
    (hallow : env.allowed_intents.contains "edit_file" = true)
    (hreg : env.registry "edit_file" = some spec) :
    effIntent data seen = some "edit_file" ∧
    ∃ rec mem' seen',
      runStep env goal reply mem seen = StepResult.executed rec mem' seen' ∧
      rec.intent = "edit_file" ∧ seen' = seen ++ ["edit_file"] := by
  have heff : effIntent data seen = some "edit_file" := by
    unfold effIntent
    rw [if_pos ⟨hintent, List.one_le_count_iff.mpr hseen⟩]
  refine ⟨heff, ?_⟩
  have hcs : computeStop goal data.stop seen = false := by
    rw [hstop]
    rfl
  unfold runStep
  rw [hdata]
  dsimp only
  unfold stepAfterParse
  rw [hcs]
  simp only [Bool.false_eq_true, if_false]
  rw [heff]
  dsimp only
  rw [if_pos hallow]
  unfold execPhase
  rw [hreg]
  exact ⟨mkRecord env "edit_file" data.params mem spec,
    mkMemAfter env "edit_file" data.params mem spec, seen ++ ["edit_file"],
    rfl, rfl, rfl⟩

/-- Witness for C6 (amended): with `read_file` already seen and a
non-stopping repeated `read_file` reply, the step executes `edit_file`. -/
theorem read_guard_forces_edit_intent_witness :
    ∃ rec mem' seen',
      runStep c6Env "g" (EngineReply.ok ⟨"", some "read_file", [], false, ""⟩)
          initMemory ["read_file"] = StepResult.executed rec mem' seen' ∧
      rec.intent = "edit_file" ∧ seen' = ["read_file", "edit_file"] := by
  obtain ⟨-, rec, mem', seen', hrun, hint, hseen⟩ :=
    read_guard_forces_edit_intent c6Env "g"
      (EngineReply.ok ⟨"", some "read_file", [], false, ""⟩) initMemory
      ["read_file"] ⟨"", some "read_file", [], false, ""⟩
      (Spec.plugin "files.edit_file") rfl rfl (by simp) rfl rfl rfl
  exact ⟨rec, mem', seen', hrun, hint, by rw [hseen]; rfl⟩

end Mia
